import Mathlib

/-!
Verification development for the DeepSeek chat proxy route
(`src/app/api/chat/route.ts`).  The definitions below are a shallow
embedding of the route's data model and functions: JavaScript objects
become structures, thrown `ApiError`s become `Except`, the in-place
mutation of `normalizeMessages` has both a pure value-level embedding
and an explicit store-passing embedding, and the SSE re-framing stream
is a fold over the parsed upstream event sequence.
-/

namespace DeepSeek

/-- A chat message (route.ts lines 11–15).  `role` is an arbitrary string
in the source; `reasoning_content` is an optional field. -/
structure Message where
  role : String
  content : String
  reasoning_content : Option String := none
deriving DecidableEq, Repr

/-- JavaScript truthiness of an optional string-valued field:
`undefined` and the empty string are falsy. -/
def truthyStr : Option String → Bool
  | none => false
  | some s => !(s == "")

/-- API_ERROR_MESSAGES.DEFAULT (route.ts line 33). -/
def MSG_DEFAULT : String := "与 DeepSeek API 通信时发生错误。"

/-- API_ERROR_MESSAGES.RATE_LIMIT (route.ts line 34). -/
def MSG_RATE_LIMIT : String := "速率限制超出。请稍后重试。"

/-- API_ERROR_MESSAGES.INVALID_KEY (route.ts line 35). -/
def MSG_INVALID_KEY : String := "API 密钥无效。请检查您的配置。"

/-- API_ERROR_MESSAGES.BAD_REQUEST (route.ts line 36). -/
def MSG_BAD_REQUEST : String := "请求格式无效"

/-- API_ERROR_MESSAGES.SERVICE_UNAVAILABLE (route.ts line 37). -/
def MSG_SERVICE_UNAVAILABLE : String := "DeepSeek 服务暂时不可用。请稍后重试。"

/-- API_ERROR_MESSAGES.TIMEOUT (route.ts line 38). -/
def MSG_TIMEOUT : String := "请求超时"

/-- API_ERROR_MESSAGES.STREAM_FAILED (route.ts line 39). -/
def MSG_STREAM_FAILED : String := "流处理失败"

/-- API_ERROR_MESSAGES.PARSE_ERROR (route.ts line 40). -/
def MSG_PARSE_ERROR : String := "解析响应数据时发生错误"

/-- API_ERROR_MESSAGES.INVALID_MESSAGE_SEQUENCE (route.ts line 41). -/
def MSG_INVALID_MESSAGE_SEQUENCE : String := "消息序列无效：用户和助手的消息必须交替出现"

/-- API_ERROR_MESSAGES.REASONING_CONTENT_NOT_ALLOWED (route.ts line 42). -/
def MSG_REASONING_CONTENT_NOT_ALLOWED : String := "消息历史中不允许包含思维链内容"

/-- Message of the `ApiError` thrown by `validateAndParseRequest` (line 95). -/
def MSG_INVALID_REQUEST : String := "无效的请求参数"

/-- Message of the `ApiError` thrown by `getApiConfig` (line 145). -/
def MSG_NO_API_KEY : String := "API密钥未配置"

/-- The `ApiError` class (route.ts lines 78–83): a message plus the
HTTP status attached to it. -/
structure ApiError where
  message : String
  status : Nat
deriving DecidableEq, Repr

/-- `validateNoReasoningContent` (route.ts lines 70–76): throws a 400
`ApiError` as soon as some message carries a truthy `reasoning_content`. -/
def validateNoReasoningContent : List Message → Except ApiError Unit
  | [] => .ok ()
  | m :: rest =>
    if truthyStr m.reasoning_content then
      .error ⟨MSG_REASONING_CONTENT_NOT_ALLOWED, 400⟩
    else validateNoReasoningContent rest

/-- One step of the `reduce` inside `normalizeMessages` (route.ts
lines 115–128), with the accumulator kept in reverse order.  If the
current message's role equals the role of the last kept message, the
current content is concatenated (newline-joined) onto the kept
message's content; otherwise the current message is appended. -/
def mergeRev : List Message → Message → List Message
  | [], curr => [curr]
  | prev :: rest, curr =>
    if prev.role = curr.role then
      { prev with content := prev.content ++ "\n" ++ curr.content } :: rest
    else curr :: prev :: rest

/-- The merge pass of `normalizeMessages` (route.ts lines 115–128), as a
pure value-level function. -/
def normalizeMerge (messages : List Message) : List Message :=
  (messages.foldl mergeRev []).reverse

/-- `validateMessageSequence` (route.ts lines 134–140): throws a 400
`ApiError` if two adjacent messages have equal roles. -/
def validateMessageSequence : List Message → Except ApiError Unit
  | [] => .ok ()
  | [_] => .ok ()
  | a :: b :: rest =>
    if a.role = b.role then .error ⟨MSG_INVALID_MESSAGE_SEQUENCE, 400⟩
    else validateMessageSequence (b :: rest)

/-- `normalizeMessages` (route.ts lines 114–132): merge pass followed by
the post-merge re-validation. -/
def normalizeMessages (messages : List Message) : Except ApiError (List Message) :=
  match validateMessageSequence (normalizeMerge messages) with
  | .error e => .error e
  | .ok _ => .ok (normalizeMerge messages)

/-- `buildMessageHistory` (route.ts lines 104–112): wraps the client
turns between a synthesized system message and a synthesized user
message, then normalizes. -/
def buildMessageHistory (prompt : String) (messages : List Message) (input : String) :
    Except ApiError (List Message) :=
  normalizeMessages (⟨"system", prompt, none⟩ :: messages ++ [⟨"user", input, none⟩])

/-- `process.env` fields read by `getApiConfig` (route.ts lines 142–154). -/
structure EnvConfig where
  DEEPSEEK_API_KEY : Option String := none
  DEEPSEEKAPI_BASE_URL : Option String := none
  DEEPSEEK_MODEL : Option String := none
deriving DecidableEq, Repr

/-- `ApiConfig` (route.ts lines 17–22). -/
structure ApiConfig where
  apiUrl : String
  apiKey : String
  model : String
  maxTokens : Nat
deriving DecidableEq, Repr

/-- TIMEOUT_MS (route.ts line 30). -/
def TIMEOUT_MS : Nat := 30000

/-- MAX_TOKENS (route.ts line 31). -/
def MAX_TOKENS : Nat := 4000

/-- JavaScript `a || b` on an optional string environment variable. -/
def orElse (v : Option String) (d : String) : String :=
  if truthyStr v then v.getD "" else d

/-- `getApiConfig` (route.ts lines 142–154): fails with a 500 `ApiError`
when the credential is falsy, otherwise fills defaults for URL and model. -/
def getApiConfig (env : EnvConfig) : Except ApiError ApiConfig :=
  if !(truthyStr env.DEEPSEEK_API_KEY) then .error ⟨MSG_NO_API_KEY, 500⟩
  else
    .ok { apiUrl := orElse env.DEEPSEEKAPI_BASE_URL "https://api.deepseek.com" ++ "/v1/chat/completions"
          apiKey := env.DEEPSEEK_API_KEY.getD ""
          model := orElse env.DEEPSEEK_MODEL "deepseek-chat"
          maxTokens := MAX_TOKENS }

/-! ### Upstream error mapping -/

/-- `Response.ok`: status in the 200–299 range. -/
def responseOk (status : Nat) : Bool := 200 ≤ status && status ≤ 299

/-- `getErrorData` (route.ts lines 199–219).  `parsedErrMsg` embeds the
opaque `JSON.parse` of the response body: it is `some m` exactly when the
body parses as JSON carrying a truthy `error.message` field `m`, in which
case the local `message` is replaced, else `message` stays
`MSG_DEFAULT`.  Returns the `message` of the object the source builds. -/
def getErrorData (status : Nat) (statusText : String) (parsedErrMsg : Option String) : String :=
  let message := match parsedErrMsg with
    | some m => m
    | none => MSG_DEFAULT
  if status = 429 then MSG_RATE_LIMIT
  else if status = 401 then MSG_INVALID_KEY
  else if status = 400 then MSG_BAD_REQUEST ++ ": " ++ message
  else if status = 503 then MSG_SERVICE_UNAVAILABLE
  else MSG_DEFAULT ++ " (" ++ toString status ++ " " ++ statusText ++ "): " ++ message

/-- `validateApiResponse` (route.ts lines 189–197): on a non-ok response,
status 401 throws the invalid-key error directly, any other status throws
the `getErrorData` message paired with the response status. -/
def validateApiResponse (status : Nat) (statusText : String) (parsedErrMsg : Option String) :
    Except ApiError Unit :=
  if responseOk status then .ok ()
  else if status = 401 then .error ⟨MSG_INVALID_KEY, 401⟩
  else .error ⟨getErrorData status statusText parsedErrMsg, status⟩

/-! ### The SSE re-framing stream -/

/-- `choices[0].delta` of a parsed upstream event (route.ts line 285):
the two fragment fields the callback inspects, each subject to JS
truthiness. -/
structure Delta where
  reasoning_content : Option String := none
  content : Option String := none
deriving DecidableEq, Repr

/-- The data payload of one upstream SSE event, discriminated the way
the callback at route.ts lines 270–313 discriminates it: the literal
sentinel strings are compared first, any other payload goes through
`JSON.parse`, whose opaque outcome is embedded as either `parsed`
(with the extracted optional `choices[0].delta`) or `parseError`. -/
inductive EventData
  | done
  | keepAlive
  | parsed (delta : Option Delta)
  | parseError
deriving DecidableEq, Repr

/-- One callback invocation of `createParser`: either a parsed SSE event
carrying data, or a reconnect-interval notification (ignored because of
the `event.type === event` guard at line 271). -/
inductive UpstreamEvent
  | event (data : EventData)
  | reconnectInterval
deriving DecidableEq, Repr

/-- Observable state of the outbound `ReadableStream`: the concatenation
of all bytes enqueued so far, whether `controller.close()` has been
called, and whether `controller.error(...)` has been signaled. -/
structure OutState where
  out : String
  closed : Bool
  errored : Bool
deriving DecidableEq, Repr

/-- The parser callback of `createResponseStream` (route.ts
lines 270–313) acting on the outbound-stream state for one upstream
event. -/
def onEvent (st : OutState) (ev : UpstreamEvent) : OutState :=
  match ev with
  | .reconnectInterval => st
  | .event data =>
    match data with
    | .done => { st with closed := true }
    | .keepAlive => st
    | .parsed none => st
    | .parsed (some delta) =>
      let st1 :=
        if truthyStr delta.reasoning_content then
          { st with out := st.out ++ "[Reasoning]" ++ delta.reasoning_content.getD "" ++ "[/Reasoning]" }
        else st
      if truthyStr delta.content then
        { st1 with out := st1.out ++ "[Content]" ++ delta.content.getD "" ++ "[/Content]" }
      else st1
    | .parseError => { st with out := st.out ++ MSG_PARSE_ERROR ++ "\n", closed := true }

/-- One callback invocation as observed by the consumer.  Once
`controller.close()` has been called, enqueue/close calls on the closed
controller throw and deliver nothing to the consumer, so events after
the close have no observable effect: they are skipped. -/
def feedEvent (st : OutState) (ev : UpstreamEvent) : OutState :=
  if st.closed then st else onEvent st ev

/-- Feeding a sequence of parsed upstream events through the callback,
starting from the fresh outbound stream. -/
def processEvents (evs : List UpstreamEvent) : OutState :=
  evs.foldl feedEvent ⟨"", false, false⟩

/-- How the upstream byte stream terminates from the read loop's point
of view (route.ts lines 315–331): either the reader reports completion
(`done` breaks the loop and `start` just returns), or reading throws and
the catch calls `controller.error`. -/
inductive EndKind
  | eof
  | transportError
deriving DecidableEq, Repr

/-- The whole body of `createResponseStream`'s `start` (route.ts
lines 269–332): the events parsed from the upstream bytes are fed in
order, then the loop ends.  On `eof` nothing further happens — in
particular `controller.close()` is NOT called.  On a transport error
`controller.error` is signaled (a no-op if the stream is already
closed). -/
def runResponseStream (evs : List UpstreamEvent) (fin : EndKind) : OutState :=
  match fin with
  | .eof => processEvents evs
  | .transportError =>
    if (processEvents evs).closed then processEvents evs
    else { processEvents evs with errored := true }

/-! ### Upstream client, timeout and the POST pipeline -/

/-- A JavaScript exception as the route's catch blocks discriminate it:
an `ApiError` instance, an abort rejection (an `Error` whose `name` is
the literal `AbortError`), any other `Error` (with its `name` and
`message`), or a thrown non-`Error` value. -/
inductive JsError
  | apiError (e : ApiError)
  | abortError
  | plainError (errName errMessage : String)
  | nonError
deriving DecidableEq, Repr

/-- `handleStreamError` (route.ts lines 221–229): an `Error` named
`AbortError` becomes the 408 timeout `ApiError`, any other `Error` is
rethrown unchanged, and a non-`Error` value becomes the 500
stream-failed `ApiError`.  The result is what the function throws. -/
def handleStreamError : JsError → JsError
  | .abortError => .apiError ⟨MSG_TIMEOUT, 408⟩
  | .apiError e => .apiError e
  | .plainError n m => .plainError n m
  | .nonError => .apiError ⟨MSG_STREAM_FAILED, 500⟩

/-- The upstream HTTP response as the route observes it: status line,
the opaque parse of the error body (as in `getErrorData`), and the
upstream SSE events its body decodes to. -/
structure UpstreamResponse where
  status : Nat
  statusText : String
  parsedErrMsg : Option String
  events : List UpstreamEvent
deriving DecidableEq, Repr

/-- Outcome of the race in `createDeepSeekStream` (route.ts
lines 231–263) between the upstream `fetch` and the 30000 ms timer:
either the timer fired before the response began (`timedOut`), or the
response resolved, or the fetch rejected for another reason. -/
inductive UpstreamPhase
  | timedOut
  | resolved (r : UpstreamResponse)
  | failed (e : JsError)
deriving DecidableEq, Repr

/-- The awaited result of `makeApiRequest` (route.ts lines 156–187)
under the timer of `createDeepSeekStream`: when the timeout elapses
before the upstream response begins, the timer callback calls
`controller.abort()`, which cancels the in-flight request — the `fetch`
carrying `controller.signal` rejects with an `AbortError`. -/
def fetchResult : UpstreamPhase → Except JsError UpstreamResponse
  | .timedOut => .error .abortError
  | .resolved r => .ok r
  | .failed e => .error e

/-- The catch block of `createDeepSeekStream` (route.ts lines 254–259):
a 401 `ApiError` is replaced by the invalid-key 401 error, everything
else goes through `handleStreamError`. -/
def catchClause (e : JsError) : JsError :=
  match e with
  | .apiError a => if a.status = 401 then .apiError ⟨MSG_INVALID_KEY, 401⟩ else handleStreamError (.apiError a)
  | _ => handleStreamError e

/-- `createDeepSeekStream` (route.ts lines 231–263): awaits the fetch,
validates the response, re-checks `response.ok` (the redundant second
check at lines 242–245), and on success hands the response body to
`createResponseStream`; any exception is transformed by the catch
block.  The returned value is the event sequence the outbound stream
will be built from. -/
def createDeepSeekStream (phase : UpstreamPhase) : Except JsError (List UpstreamEvent) :=
  let tryBody : Except JsError (List UpstreamEvent) :=
    match fetchResult phase with
    | .error e => .error e
    | .ok r =>
      match validateApiResponse r.status r.statusText r.parsedErrMsg with
      | .error e => .error (.apiError e)
      | .ok _ =>
        if !(responseOk r.status) then
          .error (.apiError ⟨getErrorData r.status r.statusText r.parsedErrMsg, r.status⟩)
        else .ok r.events
  match tryBody with
  | .error e => .error (catchClause e)
  | .ok v => .ok v

/-- Status of the JSON error response built by `POST`'s catch block
(route.ts lines 58–66): the `ApiError` status, or 500 otherwise. -/
def postErrorStatus : JsError → Nat
  | .apiError a => a.status
  | _ => 500

/-- Body message of the JSON error response built by `POST`'s catch
block: `error.message` for an `Error`, the literal fallback otherwise. -/
def postErrorMessage : JsError → String
  | .apiError a => a.message
  | .plainError _ m => m
  | .abortError => "signal is aborted without reason"
  | .nonError => "Unknown error"

/-- What `POST` hands back to the caller: a streaming 200 response
wrapping the re-framed upstream events, or a JSON error response with a
status. -/
inductive PostResult
  | streamResponse (events : List UpstreamEvent)
  | errorResponse (status : Nat) (message : String)
deriving DecidableEq, Repr

/-- The `POST` handler (route.ts lines 45–68) after request parsing,
paired with whether the upstream request was issued (`makeApiRequest`
reached).  `body` is the outcome of `validateAndParseRequest`; `phase`
is the behavior of the upstream once called. -/
def POST (body : Except ApiError (String × List Message × String)) (env : EnvConfig)
    (phase : UpstreamPhase) : PostResult × Bool :=
  match body with
  | .error e => (.errorResponse e.status e.message, false)
  | .ok (prompt, messages, input) =>
    match validateNoReasoningContent messages with
    | .error e => (.errorResponse e.status e.message, false)
    | .ok _ =>
      match buildMessageHistory prompt messages input with
      | .error e => (.errorResponse e.status e.message, false)
      | .ok _ =>
        match getApiConfig env with
        | .error e => (.errorResponse e.status e.message, false)
        | .ok _ =>
          match createDeepSeekStream phase with
          | .error je => (.errorResponse (postErrorStatus je) (postErrorMessage je), true)
          | .ok evs => (.streamResponse evs, true)

/-! ### Store-passing embedding of the normalizer's mutation -/

/-- A heap of `Message` objects addressed by identity. -/
def Store : Type := Nat → Message

/-- One step of the `reduce` inside `normalizeMessages` with the object
heap explicit (route.ts lines 115–128): the accumulator holds object
references; a merge MUTATES the kept object's `content` field in the
store (line 123: `prevMsg.content = ...`) instead of allocating. -/
def mergeRevStore (sacc : Store × List Nat) (curr : Nat) : Store × List Nat :=
  let (store, acc) := sacc
  match acc with
  | [] => (store, [curr])
  | prev :: rest =>
    if (store prev).role = (store curr).role then
      (Function.update store prev
        { store prev with content := (store prev).content ++ "\n" ++ (store curr).content },
       prev :: rest)
    else (store, curr :: prev :: rest)

/-- The merge pass of `normalizeMessages` over the object heap: returns
the final heap and the list of object references kept (in order). -/
def normalizeStore (store : Store) (ids : List Nat) : Store × List Nat :=
  ((ids.foldl mergeRevStore (store, [])).1, (ids.foldl mergeRevStore (store, [])).2.reverse)

/-! ### JS-level request validation -/

/-- A JavaScript value, as far as `validateAndParseRequest` can observe
one. -/
inductive JSValue
  | vstr (s : String)
  | vnum (n : Int)
  | vbool (b : Bool)
  | vnull
  | vundefined
  | varr (elems : List JSValue)

/-- JavaScript truthiness of a `JSValue`. -/
def truthyJS : JSValue → Bool
  | .vstr s => !(s == "")
  | .vnum n => !(n == 0)
  | .vbool b => b
  | .vnull => false
  | .vundefined => false
  | .varr _ => true

/-- `Array.isArray`. -/
def isArrayJS : JSValue → Bool
  | .varr _ => true
  | _ => false

/-- `validateAndParseRequest` (route.ts lines 85–102) at the JavaScript
level: the `as` cast checks nothing, so the only checks are that
`prompt` and `input` are truthy and that `messages` is an array; the
destructured values are returned unchanged. -/
def validateAndParseRequestJS (prompt messages input : JSValue) :
    Except ApiError (JSValue × JSValue × JSValue) :=
  if !(truthyJS prompt) || !(isArrayJS messages) || !(truthyJS input) then
    .error ⟨MSG_INVALID_REQUEST, 400⟩
  else .ok (prompt, messages, input)

/-! ### Derived notions used by the statements -/

/-- Two messages have different roles: the relation that holds between
adjacent elements of a well-formed history. -/
def roleNe (a b : Message) : Prop := a.role ≠ b.role

instance : DecidableRel roleNe := fun a b =>
  inferInstanceAs (Decidable (a.role ≠ b.role))

/-- The role of the last kept element, which the merge step of
`normalizeMessages` compares against. -/
def lastRole (l : List Message) : Option String := l.getLast?.map Message.role

/-- An upstream delta event carrying the given optional reasoning and
content fragments. -/
def deltaEvent (rc c : Option String) : UpstreamEvent :=
  .event (.parsed (some ⟨rc, c⟩))

/-- An upstream event that is neither the `[DONE]` sentinel nor a
payload that fails JSON parsing: the events that can never close the
outbound stream. -/
def plainEvent (ev : UpstreamEvent) : Prop :=
  ev ≠ .event .done ∧ ev ≠ .event .parseError

instance : DecidablePred plainEvent := fun ev =>
  inferInstanceAs (Decidable (ev ≠ .event .done ∧ ev ≠ .event .parseError))

/-- A two-object heap holding two caller-supplied user messages, used to
exhibit the in-place mutation performed by the merge pass. -/
def demoStore : Store := fun i => if i = 0 then ⟨"user", "a", none⟩ else ⟨"user", "b", none⟩

/-! ## Helper lemmas about the normalizer -/

theorem mergeRev_ne_nil (acc : List Message) (curr : Message) : mergeRev acc curr ≠ [] := by
  cases acc with
  | nil => simp [mergeRev]
  | cons prev rest =>
    by_cases h : prev.role = curr.role <;> simp [mergeRev, h]

theorem mergeRev_chain (acc : List Message) (curr : Message)
    (h : List.Chain' roleNe acc) : List.Chain' roleNe (mergeRev acc curr) := by
  cases acc with
  | nil => simp [mergeRev]
  | cons prev rest =>
    by_cases heq : prev.role = curr.role
    · simp only [mergeRev, if_pos heq]
      cases rest with
      | nil => simp
      | cons b t =>
        rw [List.chain'_cons] at h ⊢
        exact ⟨h.1, h.2⟩
    · simp only [mergeRev, if_neg heq]
      rw [List.chain'_cons]
      exact ⟨fun hc => heq hc.symm, h⟩

theorem foldl_mergeRev_chain (msgs : List Message) :
    ∀ acc : List Message, List.Chain' roleNe acc →
      List.Chain' roleNe (msgs.foldl mergeRev acc) := by
  induction msgs with
  | nil => intro acc h; simpa using h
  | cons curr rest ih =>
    intro acc h
    simp only [List.foldl_cons]
    exact ih _ (mergeRev_chain acc curr h)

theorem normalizeMerge_chain (msgs : List Message) :
    List.Chain' roleNe (normalizeMerge msgs) := by
  unfold normalizeMerge
  rw [List.chain'_reverse]
  refine (foldl_mergeRev_chain msgs [] (by simp)).imp ?_
  intro a b hab
  exact fun hc => hab hc.symm

theorem validateMessageSequence_iff :
    ∀ l : List Message, validateMessageSequence l = .ok () ↔ List.Chain' roleNe l
  | [] => by simp [validateMessageSequence]
  | [a] => by simp [validateMessageSequence]
  | a :: b :: rest => by
    rw [validateMessageSequence, List.chain'_cons]
    by_cases h : a.role = b.role
    · simp [h, roleNe]
    · simp [h, roleNe, validateMessageSequence_iff (b :: rest)]

theorem mergeRev_lastRole (acc : List Message) (curr : Message) (h : acc ≠ []) :
    lastRole (mergeRev acc curr) = lastRole acc := by
  cases acc with
  | nil => exact absurd rfl h
  | cons prev rest =>
    by_cases heq : prev.role = curr.role
    · simp only [mergeRev, if_pos heq]
      cases rest with
      | nil => simp [lastRole]
      | cons b t => simp [lastRole, List.getLast?_cons_cons]
    · simp only [mergeRev, if_neg heq]
      simp [lastRole, List.getLast?_cons_cons]

theorem foldl_mergeRev_lastRole (msgs : List Message) :
    ∀ acc : List Message, acc ≠ [] →
      msgs.foldl mergeRev acc ≠ [] ∧ lastRole (msgs.foldl mergeRev acc) = lastRole acc := by
  induction msgs with
  | nil => intro acc h; exact ⟨h, rfl⟩
  | cons curr rest ih =>
    intro acc h
    simp only [List.foldl_cons]
    obtain ⟨h1, h2⟩ := ih (mergeRev acc curr) (mergeRev_ne_nil acc curr)
    exact ⟨h1, h2.trans (mergeRev_lastRole acc curr h)⟩

theorem normalizeMerge_head_role (m : Message) (ms : List Message) :
    (normalizeMerge (m :: ms)).head?.map Message.role = some m.role := by
  unfold normalizeMerge
  rw [List.head?_reverse]
  have hstep : (m :: ms).foldl mergeRev [] = ms.foldl mergeRev [m] := by
    simp [mergeRev]
  rw [hstep]
  have := foldl_mergeRev_lastRole ms [m] (by simp)
  have hlast : lastRole (ms.foldl mergeRev [m]) = some m.role := by
    rw [this.2]; simp [lastRole]
  exact hlast

/-- The merge pass of the normalizer always produces a sequence whose
post-merge re-validation succeeds, starting with the first input
message's role intact. -/
theorem buildMessageHistory_ok (prompt input : String) (messages : List Message) :
    ∃ l, buildMessageHistory prompt messages input = .ok l ∧
      l.head?.map Message.role = some "system" ∧ List.Chain' roleNe l := by
  refine ⟨normalizeMerge (⟨"system", prompt, none⟩ :: messages ++ [⟨"user", input, none⟩]), ?_, ?_, ?_⟩
  · unfold buildMessageHistory normalizeMessages
    rw [(validateMessageSequence_iff _).mpr (normalizeMerge_chain _)]
  · exact normalizeMerge_head_role _ _
  · exact normalizeMerge_chain _

theorem foldl_mergeRev_alt (l : List Message) :
    ∀ (a : Message) (acc : List Message), List.Chain' roleNe (a :: l) →
      l.foldl mergeRev (a :: acc) = l.reverse ++ a :: acc := by
  induction l with
  | nil => intro a acc _; rfl
  | cons b t ih =>
    intro a acc h
    rw [List.chain'_cons] at h
    have hstep : mergeRev (a :: acc) b = b :: a :: acc := by
      simp only [mergeRev, if_neg h.1]
    simp only [List.foldl_cons, hstep, ih b (a :: acc) h.2, List.reverse_cons,
      List.append_assoc, List.cons_append, List.nil_append]

theorem normalizeMerge_of_chain (l : List Message) (h : List.Chain' roleNe l) :
    normalizeMerge l = l := by
  cases l with
  | nil => rfl
  | cons a t =>
    unfold normalizeMerge
    have hstep : (a :: t).foldl mergeRev [] = t.foldl mergeRev [a] := by
      simp [mergeRev]
    rw [hstep, foldl_mergeRev_alt t a [] h]
    simp

/-! ## Helper lemmas about the outbound stream -/

theorem onEvent_errored (st : OutState) (ev : UpstreamEvent) :
    (onEvent st ev).errored = st.errored := by
  cases ev with
  | reconnectInterval => rfl
  | event data =>
    cases data with
    | done => rfl
    | keepAlive => rfl
    | parseError => rfl
    | parsed delta =>
      cases delta with
      | none => rfl
      | some d =>
        simp only [onEvent]
        split <;> split <;> rfl

theorem onEvent_closed_plain (st : OutState) (ev : UpstreamEvent) (h : plainEvent ev) :
    (onEvent st ev).closed = st.closed := by
  cases ev with
  | reconnectInterval => rfl
  | event data =>
    cases data with
    | done => exact absurd rfl h.1
    | keepAlive => rfl
    | parseError => exact absurd rfl h.2
    | parsed delta =>
      cases delta with
      | none => rfl
      | some d =>
        simp only [onEvent]
        split <;> split <;> rfl

theorem foldl_feedEvent_errored (evs : List UpstreamEvent) :
    ∀ st : OutState, (evs.foldl feedEvent st).errored = st.errored := by
  induction evs with
  | nil => intro st; rfl
  | cons ev rest ih =>
    intro st
    simp only [List.foldl_cons]
    rw [ih]
    unfold feedEvent
    split
    · rfl
    · exact onEvent_errored st ev

theorem foldl_feedEvent_closed_plain (evs : List UpstreamEvent) :
    ∀ st : OutState, (∀ ev ∈ evs, plainEvent ev) → st.closed = false →
      (evs.foldl feedEvent st).closed = false := by
  induction evs with
  | nil => intro st _ h; exact h
  | cons ev rest ih =>
    intro st hall h
    simp only [List.foldl_cons]
    refine ih _ (fun e he => hall e (List.mem_cons_of_mem _ he)) ?_
    unfold feedEvent
    rw [if_neg (by rw [h]; exact Bool.false_ne_true)]
    rw [onEvent_closed_plain st ev (hall ev (List.mem_cons_self ev rest))]
    exact h

theorem foldl_feedEvent_of_closed (evs : List UpstreamEvent) :
    ∀ st : OutState, st.closed = true → evs.foldl feedEvent st = st := by
  induction evs with
  | nil => intro st _; rfl
  | cons ev rest ih =>
    intro st h
    simp only [List.foldl_cons]
    rw [feedEvent, if_pos h]
    exact ih st h

theorem processEvents_errored (evs : List UpstreamEvent) :
    (processEvents evs).errored = false :=
  foldl_feedEvent_errored evs _

theorem processEvents_closed_plain (evs : List UpstreamEvent)
    (h : ∀ ev ∈ evs, plainEvent ev) : (processEvents evs).closed = false :=
  foldl_feedEvent_closed_plain evs _ h rfl

theorem outstate_update_eq (st : OutState) (s : String) (he : st.errored = false) :
    { st with out := s, closed := true } = OutState.mk s true false := by
  cases st
  simp only [OutState.mk.injEq]
  simp_all

/-! ## Helper lemma about request validation -/

theorem validateNoReasoningContent_error (msgs : List Message)
    (h : ∃ m ∈ msgs, truthyStr m.reasoning_content = true) :
    validateNoReasoningContent msgs = .error ⟨MSG_REASONING_CONTENT_NOT_ALLOWED, 400⟩ := by
  induction msgs with
  | nil =>
    rcases h with ⟨m, hm, _⟩
    cases hm
  | cons a rest ih =>
    simp only [validateNoReasoningContent]
    by_cases ha : truthyStr a.reasoning_content = true
    · rw [if_pos ha]
    · rw [if_neg ha]
      apply ih
      rcases h with ⟨m, hm, hmt⟩
      rcases List.mem_cons.mp hm with rfl | hmem
      · exact absurd hmt ha
      · exact ⟨m, hmem, hmt⟩

/-! ## Helper lemma about the store-passing merge -/

theorem foldl_mergeRevStore_sublist (ids : List Nat) :
    ∀ (store : Store) (acc : List Nat),
      ((ids.foldl mergeRevStore (store, acc)).2).reverse.Sublist (acc.reverse ++ ids) := by
  induction ids with
  | nil => intro store acc; simp
  | cons curr rest ih =>
    intro store acc
    simp only [List.foldl_cons]
    cases acc with
    | nil =>
      simpa using ih store [curr]
    | cons prev acct =>
      by_cases h : (store prev).role = (store curr).role
      · simp only [mergeRevStore, if_pos h]
        refine (ih _ (prev :: acct)).trans ?_
        exact List.Sublist.append_left (List.sublist_cons_self curr rest) _
      · simp only [mergeRevStore, if_neg h]
        have := ih store (curr :: prev :: acct)
        simpa [List.append_assoc] using this

/-! ## The claims -/

/-- C1: For the upstream sequence delta(reasoning "r1"), delta(content
"c1"), `[DONE]`, the outbound stream is exactly
`[Reasoning]r1[/Reasoning][Content]c1[/Content]` and is then closed;
a delta event carrying both a non-empty reasoning fragment and a
non-empty content fragment emits the Reasoning chunk before the Content
chunk; and chunks are emitted in upstream arrival order: feeding one
more event transforms the state by exactly that event's callback. -/
theorem c1_reframer_output_and_order :
    processEvents [deltaEvent (some "r1") none, deltaEvent none (some "c1"),
        .event .done] =
      OutState.mk "[Reasoning]r1[/Reasoning][Content]c1[/Content]" true false ∧
    (∀ (st : OutState) (rc c : String), rc ≠ "" → c ≠ "" →
      onEvent st (deltaEvent (some rc) (some c)) =
        { st with out := st.out ++ "[Reasoning]" ++ rc ++ "[/Reasoning]" ++
            "[Content]" ++ c ++ "[/Content]" }) ∧
    (∀ (evs : List UpstreamEvent) (ev : UpstreamEvent),
      (processEvents evs).closed = false →
      processEvents (evs ++ [ev]) = onEvent (processEvents evs) ev) := by
  refine ⟨by decide, ?_, ?_⟩
  · intro st rc c hrc hc
    cases st
    simp [onEvent, deltaEvent, truthyStr, hrc, hc, String.append_assoc]
  · intro evs ev h
    have hfold : processEvents (evs ++ [ev]) = feedEvent (processEvents evs) ev := by
      simp [processEvents, List.foldl_append]
    rw [hfold, feedEvent, if_neg (by simp [h])]

/-- C1 witness: the per-event reasoning-first emission and the
arrival-order step, each at a concrete input. -/
theorem c1_reframer_output_and_order_witness :
    onEvent (OutState.mk "" false false) (deltaEvent (some "r") (some "c")) =
      { OutState.mk "" false false with
          out := "" ++ "[Reasoning]" ++ "r" ++ "[/Reasoning]" ++ "[Content]" ++ "c" ++ "[/Content]" } ∧
    processEvents ([deltaEvent (some "r") none] ++ [.event .done]) =
      onEvent (processEvents [deltaEvent (some "r") none]) (.event .done) :=
  ⟨c1_reframer_output_and_order.2.1 (OutState.mk "" false false) "r" "c"
      (by decide) (by decide),
   c1_reframer_output_and_order.2.2 [deltaEvent (some "r") none] (.event .done)
      (by decide)⟩

/-- C2 counterexample: when the upstream byte stream reaches
end-of-stream with no prior `[DONE]` and no parse failure (here: no
events at all), the outbound stream is NOT closed to the consumer —
`controller.close()` is never called on this path, so the claim that
the stream "ends (is closed to the consumer)" fails. -/
theorem c2_eof_not_closed_counterexample :
    (runResponseStream [] EndKind.eof).closed = false := by decide

/-- C2 (amended): if the upstream byte stream reaches end-of-stream
without a prior `[DONE]` sentinel and without a parse failure, no error
is signaled on the outbound stream and no further chunk is produced,
but the outbound stream is left unclosed (close is only called on
`[DONE]` or on a parse failure). -/
theorem c2_eof_silent (evs : List UpstreamEvent) (h : ∀ ev ∈ evs, plainEvent ev) :
    (runResponseStream evs EndKind.eof).errored = false ∧
    (runResponseStream evs EndKind.eof).closed = false :=
  ⟨processEvents_errored evs, processEvents_closed_plain evs h⟩

/-- C2 witness: a concrete delta-only upstream stream ending at EOF. -/
theorem c2_eof_silent_witness :
    (runResponseStream [deltaEvent (some "r") (some "c")] EndKind.eof).errored = false ∧
    (runResponseStream [deltaEvent (some "r") (some "c")] EndKind.eof).closed = false :=
  c2_eof_silent [deltaEvent (some "r") (some "c")] (by decide)

/-- C3: the first upstream event whose payload is neither `[DONE]` nor
`keep-alive` and fails JSON parsing makes the outbound stream emit
exactly one parse-error notice chunk right after the chunks of the
preceding events, then close; events after it contribute nothing, even
if more remain buffered. -/
theorem c3_parse_error_terminal (evs1 evs2 : List UpstreamEvent)
    (h : ∀ ev ∈ evs1, plainEvent ev) :
    processEvents (evs1 ++ .event .parseError :: evs2) =
      OutState.mk ((processEvents evs1).out ++ MSG_PARSE_ERROR ++ "\n") true false := by
  have hopen : (processEvents evs1).closed = false := processEvents_closed_plain evs1 h
  have h1 : processEvents (evs1 ++ .event .parseError :: evs2) =
      evs2.foldl feedEvent (feedEvent (processEvents evs1) (.event .parseError)) := by
    simp [processEvents, List.foldl_append]
  rw [h1, feedEvent, if_neg (by simp [hopen])]
  have h2 : onEvent (processEvents evs1) (.event .parseError) =
      { processEvents evs1 with
          out := (processEvents evs1).out ++ MSG_PARSE_ERROR ++ "\n", closed := true } := rfl
  rw [h2, foldl_feedEvent_of_closed _ _ rfl]
  exact outstate_update_eq _ _ (processEvents_errored evs1)

/-- C3 witness: one good delta before the malformed payload, one
buffered delta after it. -/
theorem c3_parse_error_terminal_witness :
    processEvents ([deltaEvent (some "r") none] ++
        .event .parseError :: [deltaEvent none (some "x")]) =
      OutState.mk ((processEvents [deltaEvent (some "r") none]).out ++ MSG_PARSE_ERROR ++ "\n")
        true false :=
  c3_parse_error_terminal [deltaEvent (some "r") none] [deltaEvent none (some "x")] (by decide)

/-- C4: for every input triple, the merge pass of the history
normalizer yields a sequence whose first element has the system role
and in which no two adjacent elements share a role; hence the
post-merge re-validation succeeds and normalization never fails. -/
theorem c4_merge_invariant_validation_unreachable (prompt input : String)
    (messages : List Message) :
    List.Chain' roleNe
      (normalizeMerge (⟨"system", prompt, none⟩ :: messages ++ [⟨"user", input, none⟩])) ∧
    (normalizeMerge (⟨"system", prompt, none⟩ :: messages ++
        [⟨"user", input, none⟩])).head?.map Message.role = some "system" ∧
    validateMessageSequence
      (normalizeMerge (⟨"system", prompt, none⟩ :: messages ++ [⟨"user", input, none⟩])) = .ok () ∧
    buildMessageHistory prompt messages input =
      .ok (normalizeMerge (⟨"system", prompt, none⟩ :: messages ++ [⟨"user", input, none⟩])) := by
  refine ⟨normalizeMerge_chain _, normalizeMerge_head_role _ _, ?_, ?_⟩
  · exact (validateMessageSequence_iff _).mpr (normalizeMerge_chain _)
  · unfold buildMessageHistory normalizeMessages
    rw [(validateMessageSequence_iff _).mpr (normalizeMerge_chain _)]

/-- C5: a request whose messages carry a non-empty `reasoning_content`
is answered with the 400 reasoning-not-allowed error, and the upstream
request is never issued. -/
theorem c5_reasoning_content_rejected (prompt input : String) (messages : List Message)
    (env : EnvConfig) (phase : UpstreamPhase)
    (h : ∃ m ∈ messages, truthyStr m.reasoning_content = true) :
    POST (.ok (prompt, messages, input)) env phase =
      (.errorResponse 400 MSG_REASONING_CONTENT_NOT_ALLOWED, false) := by
  simp only [POST]
  rw [validateNoReasoningContent_error messages h]

/-- C5 witness: a single history message carrying reasoning content. -/
theorem c5_reasoning_content_rejected_witness :
    POST (.ok ("p", [⟨"user", "hi", some "think"⟩], "i"))
        (EnvConfig.mk (some "k") none none) UpstreamPhase.timedOut =
      (.errorResponse 400 MSG_REASONING_CONTENT_NOT_ALLOWED, false) :=
  c5_reasoning_content_rejected "p" "i" [⟨"user", "hi", some "think"⟩]
    (EnvConfig.mk (some "k") none none) UpstreamPhase.timedOut (by decide)

/-- C8: the normalizer is idempotent — on a sequence that is already
normalized (system-role head, strictly alternating adjacent roles) it
returns the very same sequence. -/
theorem c8_normalizer_idempotent (l : List Message)
    (halt : List.Chain' roleNe l)
    (_hsys : l.head?.map Message.role = some "system" ∨ l = []) :
    normalizeMessages l = .ok l := by
  unfold normalizeMessages
  rw [normalizeMerge_of_chain l halt,
    (validateMessageSequence_iff l).mpr halt]

/-- C8 witness: a concrete already-normalized history. -/
theorem c8_normalizer_idempotent_witness :
    normalizeMessages [⟨"system", "p", none⟩, ⟨"user", "i", none⟩] =
      .ok [⟨"system", "p", none⟩, ⟨"user", "i", none⟩] :=
  c8_normalizer_idempotent [⟨"system", "p", none⟩, ⟨"user", "i", none⟩]
    (List.chain'_pair.mpr (by decide)) (Or.inl (by decide))

/-- C6: every non-success upstream status is mapped, before any
streaming begins, to an error carrying that same status and the mapped
message — 401 the invalid-key message, 429 the rate-limit message,
400 the bad-request message with the upstream-reported detail when the
body parsed with an `error.message` field and the generic message
otherwise, 503 the service-unavailable message, and any other
non-success status the generic message carrying status and status
text. -/
theorem c6_upstream_error_mapping (statusText : String) (pem : Option String) :
    validateApiResponse 401 statusText pem = .error ⟨MSG_INVALID_KEY, 401⟩ ∧
    validateApiResponse 429 statusText pem = .error ⟨MSG_RATE_LIMIT, 429⟩ ∧
    (∀ d, validateApiResponse 400 statusText (some d) =
      .error ⟨MSG_BAD_REQUEST ++ ": " ++ d, 400⟩) ∧
    validateApiResponse 400 statusText none =
      .error ⟨MSG_BAD_REQUEST ++ ": " ++ MSG_DEFAULT, 400⟩ ∧
    validateApiResponse 503 statusText pem = .error ⟨MSG_SERVICE_UNAVAILABLE, 503⟩ ∧
    (∀ status : Nat, responseOk status = false →
      status ≠ 400 → status ≠ 401 → status ≠ 429 → status ≠ 503 →
      validateApiResponse status statusText pem =
        .error ⟨MSG_DEFAULT ++ " (" ++ toString status ++ " " ++ statusText ++ "): " ++
          pem.getD MSG_DEFAULT, status⟩) := by
  refine ⟨rfl, rfl, fun d => rfl, rfl, rfl, ?_⟩
  intro status hok h400 h401 h429 h503
  have hmsg : (match pem with | some m => m | none => MSG_DEFAULT) = pem.getD MSG_DEFAULT := by
    cases pem <;> rfl
  unfold validateApiResponse getErrorData
  rw [if_neg (by simp [hok]), if_neg h401, hmsg,
    if_neg h429, if_neg h401, if_neg h400, if_neg h503]

/-- C6 witness: a 502 upstream response with an unparseable body. -/
theorem c6_upstream_error_mapping_witness :
    validateApiResponse 502 "Bad Gateway" none =
      .error ⟨MSG_DEFAULT ++ " (" ++ toString 502 ++ " " ++ "Bad Gateway" ++ "): " ++
        (Option.none.getD MSG_DEFAULT), 502⟩ :=
  (c6_upstream_error_mapping "Bad Gateway" none).2.2.2.2.2 502
    (by decide) (by decide) (by decide) (by decide) (by decide)

/-- C7: when the 30000 ms timer elapses before the upstream response
begins, the abort controller cancels the in-flight fetch (it rejects
with an AbortError), `createDeepSeekStream` turns that into the 408
timeout `ApiError`, and the handler answers with a 408 timeout JSON
response. -/
theorem c7_timeout_cancels_and_returns_408 (prompt input : String)
    (messages : List Message) (env : EnvConfig)
    (h1 : validateNoReasoningContent messages = .ok ())
    (h2 : truthyStr env.DEEPSEEK_API_KEY = true) :
    fetchResult .timedOut = .error .abortError ∧
    handleStreamError .abortError = .apiError ⟨MSG_TIMEOUT, 408⟩ ∧
    createDeepSeekStream .timedOut = .error (.apiError ⟨MSG_TIMEOUT, 408⟩) ∧
    POST (.ok (prompt, messages, input)) env .timedOut =
      (.errorResponse 408 MSG_TIMEOUT, true) := by
  refine ⟨rfl, rfl, rfl, ?_⟩
  obtain ⟨l, hl, -, -⟩ := buildMessageHistory_ok prompt input messages
  simp only [POST, h1, hl, getApiConfig, h2]
  rfl

/-- C7 witness: an empty history with a configured credential. -/
theorem c7_timeout_cancels_and_returns_408_witness :
    POST (.ok ("p", [], "i")) (EnvConfig.mk (some "k") none none) .timedOut =
      (.errorResponse 408 MSG_TIMEOUT, true) :=
  (c7_timeout_cancels_and_returns_408 "p" "i" [] (EnvConfig.mk (some "k") none none)
    rfl (by decide)).2.2.2

/-- C9: the normalizer is not pure with respect to its input — over the
explicit object heap, the output history is a sublist of the very
object references passed in (the output aliases the caller's message
objects), and merging a same-role run updates the kept object's
`content` in the heap (newline-joined), as witnessed on a two-message
caller history whose first object is mutated in place. -/
theorem c9_normalizer_mutates_and_aliases :
    (∀ (store : Store) (ids : List Nat), ((normalizeStore store ids).2).Sublist ids) ∧
    (normalizeStore demoStore [0, 1]).2 = [0] ∧
    (normalizeStore demoStore [0, 1]).1 0 = ⟨"user", "a" ++ "\n" ++ "b", none⟩ ∧
    (normalizeStore demoStore [0, 1]).1 0 ≠ demoStore 0 := by
  refine ⟨?_, rfl, by decide, by decide⟩
  intro store ids
  simpa using foldl_mergeRevStore_sublist ids store []

/-- C10: request validation only checks that `prompt` and `input` are
truthy and that `messages` is an array — a numeric prompt/input passes
and is forwarded unchanged; a message whose role is an arbitrary string
outside the system/user/assistant set flows through normalization
untouched; and the alternation check compares nothing but adjacent
role-string equality. -/
theorem c10_shallow_validation :
    validateAndParseRequestJS (.vnum 5) (.varr []) (.vnum 7) =
      .ok (.vnum 5, .varr [], .vnum 7) ∧
    buildMessageHistory "p" [⟨"banana", "x", none⟩] "i" =
      .ok [⟨"system", "p", none⟩, ⟨"banana", "x", none⟩, ⟨"user", "i", none⟩] ∧
    (∀ msgs : List Message,
      validateMessageSequence msgs = .ok () ↔ List.Chain' roleNe msgs) :=
  ⟨rfl, rfl, validateMessageSequence_iff⟩

/-- C10 witness: the alternation characterization applied to the empty
sequence. -/
theorem c10_shallow_validation_witness :
    validateMessageSequence [] = .ok () :=
  (c10_shallow_validation.2.2 []).mpr List.chain'_nil

end DeepSeek
